import Mathlib

/-!
# Verification of the rubrix client ingestion coordinator

Shallow embedding of `src/rubrix/client/api.py`: the chunked uploader
`Api.log_async`, the blocking/background facade `Api.log`, the ingestion
agent `_RubrixLogAgent` and the lazy active-API singleton, together with
theorems settling the specification claims about them.

Conventions of the embedding:
* Python exceptions become `Except` values; the error taxonomy of the
  client (`InputValueError`, Python `ValueError`, wire-conversion
  failures, transport failures) is the `LogError` sum type.
* The Transport Client (`async_bulk`, an external collaborator) is a
  parameter: a function from the sequential call index and the chunk
  payload to either a transport error or a `(processed, failed)` pair.
* `log_async` is modelled as returning both the ordered list of Transport
  Client calls actually made (each call's payload) and its outcome, so
  that claims about "number of network calls made" are statable.
* Machine integers are `Int`/`Nat`; `chunk_size` is an `Int` because the
  Python code never constrains its sign.
-/

set_option autoImplicit false

namespace Rubrix

/-- The task variant tag of a client record.  Python dispatches on
`type(records[0])`; the three accepted classes are
`TextClassificationRecord`, `TokenClassificationRecord` and
`Text2TextRecord`.  Any other Python type is `other` with its type name. -/
inductive RecordType where
  | textClassification
  | tokenClassification
  | text2Text
  | other (typeName : String)
deriving Repr, DecidableEq

/-- A user-facing record: its variant tag plus an identifier standing for
the task-specific fields, which are opaque to the coordinator. -/
structure Record where
  rtype : RecordType
  rid : Nat
deriving Repr, DecidableEq

/-- A wire creation record, as produced by `creation_class.from_client`:
the creation class (identified by its task tag) applied to the record's
payload. -/
structure CreationRecord where
  task : RecordType
  rid : Nat
deriving Repr, DecidableEq

/-- The aggregate result of one `log` call
(`BulkResponse(dataset=name, processed=..., failed=...)`). -/
structure BulkResponse where
  dataset : String
  processed : Nat
  failed : Nat
deriving Repr, DecidableEq

/-- Errors raised by the coordinator: `inputValue` is the client's
`InputValueError`; `valueError` is a Python `ValueError` (raised by
`range` on a zero step); `conversionError` is a failure inside
`creation_class.from_client`; `transportError` is a failure surfaced by
the Transport Client (`async_bulk`). -/
inductive LogError where
  | inputValue (msg : String)
  | valueError (msg : String)
  | conversionError (msg : String)
  | transportError (msg : String)
deriving Repr, DecidableEq

def isInputValueError : Except LogError BulkResponse → Bool
  | .error (.inputValue _) => true
  | _ => false

def isConversionError : Except LogError BulkResponse → Bool
  | .error (.conversionError _) => true
  | _ => false

/-- The printable name of a record type (`type(records[0])` rendered). -/
def recordTypeName : RecordType → String
  | .textClassification => "TextClassificationRecord"
  | .tokenClassification => "TokenClassificationRecord"
  | .text2Text => "Text2TextRecord"
  | .other typeName => typeName

/-- The accepted variants, i.e. Python's `Record.__args__`. -/
def acceptedVariantNames : List String :=
  ["TextClassificationRecord", "TokenClassificationRecord", "Text2TextRecord"]

/-- Whether a record type is one of the three accepted variants. -/
def RecordType.isAccepted : RecordType → Bool
  | .other _ => false
  | _ => true

/-- The `if record_type is ... / elif ... / else raise` dispatch of
`log_async` (lines 352-364): maps the type of the first record to the
creation class used for the whole batch, or `none` for the final `else`
branch.  The creation class is identified by its task tag. -/
def creationClassOf : RecordType → Option RecordType
  | .textClassification => some .textClassification
  | .tokenClassification => some .tokenClassification
  | .text2Text => some .text2Text
  | .other _ => none

/-- Modelled from the spec: `from_client` of the sdk creation-record
models (`rubrix.client.sdk.*.models`, not in the source tree).  Per the
spec each variant "exposes a conversion to its wire creation-record
shape"; the wire models are task-specific, so converting a record with a
creation class of a different task fails (a field-validation failure),
while a matching record converts to its wire shape. -/
def fromClient (task : RecordType) (r : Record) : Except String CreationRecord :=
  if r.rtype = task then .ok ⟨task, r.rid⟩
  else
    .error ("Cannot build creation record for task " ++ recordTypeName task
      ++ " from record of type " ++ recordTypeName r.rtype)

/-- Left-to-right effectful map, the list comprehension
`[creation_class.from_client(r) for r in chunk]`: stops at the first
record whose conversion raises. -/
def mapExcept {α β ε : Type} (f : α → Except ε β) : List α → Except ε (List β)
  | [] => .ok []
  | a :: as =>
    match f a with
    | .error e => .error e
    | .ok b =>
      match mapExcept f as with
      | .error e => .error e
      | .ok bs => .ok (b :: bs)

/-- One step of Python `range(start, n, c)` for a positive step `c`:
emit `start` while `start < n`, advancing by `c`.  The first `Nat`
argument is fuel bounding the number of steps; since each step advances
`start` by `c ≥ 1`, a fuel of `n - start` always suffices (see
`rangeFrom` below and `rangeFromAux_fuel`).  Structural recursion on the
fuel keeps the function kernel-computable. -/
def rangeFromAux (n c : Nat) : Nat → Nat → List Nat
  | 0, _ => []
  | fuel + 1, start =>
    if start < n then start :: rangeFromAux n c fuel (start + c) else []

/-- Python `range(start, n, c)` for a positive step `c`: the ascending
indices `start, start + c, ...` strictly below `n`. -/
def rangeFrom (start n c : Nat) : List Nat := rangeFromAux n c (n - start) start

/-- Python `range(0, n, step)` over an `Int` step: a zero step raises
`ValueError`, a negative step yields the empty range (the start `0` never
exceeds the stop `n`), a positive step defers to `rangeFrom`. -/
def pyRange (n : Nat) (step : Int) : Except String (List Nat) :=
  if step = 0 then .error "range() arg 3 must not be zero"
  else if step < 0 then .ok []
  else .ok (rangeFrom 0 n step.toNat)

/-- Modelled from the spec: the constant `DATASET_NAME_REGEX_PATTERN`
(`rubrix._constants`, not in the source tree).  The spec fixes it as a
"`^[A-Za-z0-9_-]+$`-style pattern (alphanumerics, dash, underscore)". -/
def isDatasetNameChar (ch : Char) : Bool :=
  ('A' ≤ ch && ch ≤ 'Z') || ('a' ≤ ch && ch ≤ 'z') ||
    ('0' ≤ ch && ch ≤ '9') || ch == '_' || ch == '-'

/-- Boolean model of `re.match(DATASET_NAME_REGEX_PATTERN, name)`: at
least one character, all drawn from the allowed charset. -/
def matchesDatasetName (name : String) : Bool :=
  !name.isEmpty && name.toList.all isDatasetNameChar

def emptyNameMsg : String := "Empty dataset name has been passed as argument."

def patternMsg (name : String) : String :=
  "Provided dataset name " ++ name
    ++ " does not match the pattern. Please, use a valid name for your dataset"

def emptyListMsg : String := "Empty record list has been passed as argument."

/-- The message of the `else` branch of the dispatch: names the offending
type and the accepted variants (`Record.__args__`). -/
def unknownTypeMsg (t : RecordType) : String :=
  "Unknown record type " ++ recordTypeName t ++ ". Available values are "
    ++ String.intercalate ", " acceptedVariantNames

/-- A Transport Client: given the sequential call index and the chunk's
wire payload, returns a transport failure or the per-chunk
`(processed, failed)` counts of the parsed bulk response. -/
def Transport : Type :=
  Nat → List CreationRecord → Except String (Nat × Nat)

/-- The chunk loop of `log_async` (lines 366-385): for each chunk start
index, slice `records[i : i + chunk_size]`, build the wire payloads
(before the network call, since the `json_body` argument is evaluated
first), issue one Transport Client call, accumulate the counts.  A
conversion failure aborts before the chunk's call; a transport failure
aborts after it.  Returns the ordered trace of calls made (their
payloads) and either the accumulated totals or the propagated error. -/
def uploadLoop (transport : Transport) (task : RecordType) (records : List Record)
    (c : Nat) :
    List Nat → Nat → Nat → Nat → List (List CreationRecord) →
      List (List CreationRecord) × Except LogError (Nat × Nat)
  | [], _, processed, failed, trace => (trace.reverse, .ok (processed, failed))
  | i :: rest, callIdx, processed, failed, trace =>
    let chunk := (records.drop i).take c
    match mapExcept (fromClient task) chunk with
    | .error e => (trace.reverse, .error (.conversionError e))
    | .ok payload =>
      match transport callIdx payload with
      | .error e => ((payload :: trace).reverse, .error (.transportError e))
      | .ok pf =>
        uploadLoop transport task records c rest (callIdx + 1)
          (processed + pf.1) (failed + pf.2) (payload :: trace)

/-- Model of `Api.log_async` (lines 292-402).  In order, as in the source: reject
an empty dataset name; reject a name failing the regex; reject an empty
batch (`records[0]` raising `IndexError`); dispatch on the type of the
first record, rejecting unknown variants; then run the chunk loop over
`range(0, len(records), chunk_size)` and wrap the totals in a
`BulkResponse`.  (The single-record-to-list wrapping is left to the
caller — `records` is already a list — and the oversized-chunk warning is
log-only, hence not modelled.)  Returns the ordered Transport Client
calls made together with the outcome. -/
def logAsync (transport : Transport) (records : List Record) (name : String)
    (chunkSize : Int) : List (List CreationRecord) × Except LogError BulkResponse :=
  if name = "" then
    ([], .error (.inputValue emptyNameMsg))
  else if matchesDatasetName name = false then
    ([], .error (.inputValue (patternMsg name)))
  else
    match records with
    | [] => ([], .error (.inputValue emptyListMsg))
    | r :: _ =>
      match creationClassOf r.rtype with
      | none => ([], .error (.inputValue (unknownTypeMsg r.rtype)))
      | some task =>
        match pyRange records.length chunkSize with
        | .error e => ([], .error (.valueError e))
        | .ok starts =>
          let out := uploadLoop transport task records chunkSize.toNat starts 0 0 0 []
          (out.1, out.2.map fun pf => ⟨name, pf.1, pf.2⟩)

/-- What `Api.log` hands back to its caller: in background mode the
still-pending future (identified by the outcome it will eventually
resolve to), otherwise the future's result or its re-raised exception. -/
inductive LogReturn where
  | backgroundFuture (outcome : Except LogError BulkResponse)
  | blockingResult (r : BulkResponse)
  | blockingRaise (e : LogError)
deriving Repr

/-- Observable effect of one `Api.log` call: what is returned or raised,
and whether `future.cancel()` was invoked on the submitted future. -/
structure LogCallResult where
  ret : LogReturn
  futureCancelled : Bool
deriving Repr

/-- Model of `Api.log` (lines 276-290) after the future has been
submitted to the agent.  The future is modelled by the outcome it
resolves to.  With `background=True` the future is returned immediately,
without waiting and without cancelling.  Otherwise the code runs
`try: return future.result() finally: future.cancel()`, so the cancel
happens on the normal path and on the raising path alike. -/
def apiLog (outcome : Except LogError BulkResponse) (background : Bool) :
    LogCallResult :=
  if background then ⟨.backgroundFuture outcome, false⟩
  else
    match outcome with
    | .ok r => ⟨.blockingResult r, true⟩
    | .error e => ⟨.blockingRaise e, true⟩

/-- Rendering of `type(ex)` for the errors of the embedding. -/
def LogError.typeName : LogError → String
  | .inputValue _ => "InputValueError"
  | .valueError _ => "ValueError"
  | .conversionError _ => "ValidationError"
  | .transportError _ => "TransportError"

/-- Rendering of `ex` (the exception's message). -/
def LogError.message : LogError → String
  | .inputValue msg => msg
  | .valueError msg => msg
  | .conversionError msg => msg
  | .transportError msg => msg

/-- Model of `_RubrixLogAgent.__log_internal__` (lines 88-98): await the
upload coroutine; on any exception, write a diagnostic carrying the call
arguments and the exception's type and message to the logger, then
re-raise the same exception.  The first component is the diagnostic
written (`none` on success); the second is what the wrapped coroutine —
and hence the future returned by `_RubrixLogAgent.log` — resolves to. -/
def logInternal (argsCtx : String) (outcome : Except LogError BulkResponse) :
    Option String × Except LogError BulkResponse :=
  match outcome with
  | .ok r => (none, .ok r)
  | .error ex =>
    (some ("Cannot log data " ++ argsCtx ++ "\nError of type " ++ ex.typeName
        ++ "\n: " ++ ex.message),
     .error ex)

/-- Process-wide state relevant to the background execution context.
Loops are identified by creation order.  `contextLoop` is the loop of the
background execution context (none before it exists), `loopsCreated`
counts how many loop-plus-thread setups ever happened, `activeAgentLoop`
is the loop stored by the active `Api`'s `_RubrixLogAgent` (none while
`__ACTIVE_API__` is `None`). -/
structure ProcState where
  contextLoop : Option Nat
  loopsCreated : Nat
  activeAgentLoop : Option Nat
deriving Repr, DecidableEq

/-- Modelled from the spec: `rubrix.utils.setup_loop_in_thread` is not in
the source tree.  The spec describes the Background Execution Context as
a "process-wide singleton, lazily created on first need, owning one
dedicated execution thread and one scheduling loop"; accordingly the
factory returns the process-wide loop, creating it (and its thread) only
when none exists yet. -/
def setupLoopInThread (s : ProcState) : Nat × ProcState :=
  match s.contextLoop with
  | some l => (l, s)
  | none =>
    (s.loopsCreated,
     { s with contextLoop := some s.loopsCreated,
              loopsCreated := s.loopsCreated + 1 })

/-- Model of `Api.__init__` (line 149): constructs the `_RubrixLogAgent`,
whose constructor (line 86) obtains the loop and thread from
`setup_loop_in_thread` and stores them.  Returns the loop stored by the
new agent. -/
def apiInit (s : ProcState) : Nat × ProcState := setupLoopInThread s

/-- Model of `active_api` (lines 572-580): if no active `Api` exists,
construct one and install it; return the active agent's loop. -/
def activeApi (s : ProcState) : Nat × ProcState :=
  match s.activeAgentLoop with
  | some l => (l, s)
  | none =>
    let ls := apiInit s
    (ls.1, { ls.2 with activeAgentLoop := some ls.1 })

/-- Model of module-level `init` (lines 611-614): always constructs a
fresh `Api` and installs it as the active one. -/
def moduleInit (s : ProcState) : ProcState :=
  let ls := apiInit s
  { ls.2 with activeAgentLoop := some ls.1 }

/-- Module-level operations touching the background execution context:
an explicit `init(...)` call, or a `log(...)` submission (which goes
through `active_api()` and then `_RubrixLogAgent.log`, line 101,
scheduling the coroutine on the loop stored by the agent). -/
inductive ProcOp where
  | initCall
  | logSubmit
deriving Repr, DecidableEq

/-- Run a sequence of module-level operations; besides the final state,
collect the loop that each `log` submission was scheduled on. -/
def runOps : List ProcOp → ProcState → ProcState × List Nat
  | [], s => (s, [])
  | .initCall :: ops, s => runOps ops (moduleInit s)
  | .logSubmit :: ops, s =>
    let ls := activeApi s
    let rest := runOps ops ls.2
    (rest.1, ls.1 :: rest.2)

/-- The state at process start: no loop, no active `Api`. -/
def initialProcState : ProcState := ⟨none, 0, none⟩

/-- A concrete homogeneous batch of text-classification records, used by
witnesses and counterexamples. -/
def witnessBatch (n : Nat) : List Record :=
  (List.range n).map fun i => ⟨.textClassification, i⟩

/-- A concrete always-succeeding transport reporting `(2, 1)` per chunk. -/
def witnessTransport : Transport := fun _ _ => .ok (2, 1)

/-- A concrete transport whose first call succeeds with `(2, 0)` and
whose every later call raises. -/
def failingTransport : Transport :=
  fun k _ => if k = 0 then .ok (2, 0) else .error "boom"

/-! ## Helper lemmas -/

/-- The fuel of `rangeFromAux` is irrelevant as long as it is sufficient. -/
theorem rangeFromAux_fuel {n c : Nat} (hc : 0 < c) :
    ∀ fuel₁ fuel₂ start, n - start ≤ fuel₁ → n - start ≤ fuel₂ →
      rangeFromAux n c fuel₁ start = rangeFromAux n c fuel₂ start := by
  intro fuel₁
  induction fuel₁ with
  | zero =>
    intro fuel₂ start h1 h2
    cases fuel₂ with
    | zero => rfl
    | succ f =>
      simp only [rangeFromAux]
      rw [if_neg (by omega)]
  | succ f₁ ih =>
    intro fuel₂ start h1 h2
    cases fuel₂ with
    | zero =>
      simp only [rangeFromAux]
      rw [if_neg (by omega)]
    | succ f₂ =>
      simp only [rangeFromAux]
      by_cases hs : start < n
      · rw [if_pos hs, if_pos hs,
          ih f₂ (start + c) (by omega) (by omega)]
      · rw [if_neg hs, if_neg hs]

/-- Unfolding equation of `rangeFrom` for a positive step. -/
theorem rangeFrom_unfold {c : Nat} (hc : 0 < c) (start n : Nat) :
    rangeFrom start n c =
      if start < n then start :: rangeFrom (start + c) n c else [] := by
  by_cases hs : start < n
  · rw [if_pos hs]
    show rangeFromAux n c (n - start) start = _
    obtain ⟨f, hf⟩ : ∃ f, n - start = f + 1 := ⟨n - start - 1, by omega⟩
    rw [hf]
    simp only [rangeFromAux, if_pos hs]
    exact congrArg (start :: ·)
      (rangeFromAux_fuel hc f (n - (start + c)) (start + c) (by omega) (by omega))
  · rw [if_neg hs]
    show rangeFromAux n c (n - start) start = []
    have h0 : n - start = 0 := by omega
    rw [h0]
    rfl

/-- Closed form of `rangeFrom`: the `⌈(n - start) / c⌉` indices
`start + j * c`. -/
theorem rangeFrom_closed {c : Nat} (hc : 0 < c) :
    ∀ fuel start n, n - start ≤ fuel →
      rangeFrom start n c =
        (List.range ((n - start + c - 1) / c)).map fun j => start + j * c := by
  intro fuel
  induction fuel with
  | zero =>
    intro start n h
    rw [rangeFrom_unfold hc, if_neg (by omega)]
    have h1 : n - start + c - 1 = c - 1 := by omega
    rw [h1, Nat.div_eq_of_lt (by omega)]
    rfl
  | succ fuel ih =>
    intro start n h
    by_cases hs : start < n
    · rw [rangeFrom_unfold hc, if_pos hs, ih (start + c) n (by omega)]
      have hq : (n - start + c - 1) / c = (n - (start + c) + c - 1) / c + 1 := by
        have e1 : n - start + c - 1 = (n - start - 1) + c := by omega
        rw [e1, Nat.add_div_right _ hc]
        congr 1
        by_cases hm : c ≤ n - start
        · congr 1
          omega
        · rw [Nat.div_eq_of_lt (by omega), Nat.div_eq_of_lt (by omega)]
      rw [hq, List.range_succ_eq_map]
      simp only [List.map_cons, List.map_map, Nat.zero_mul, Nat.add_zero]
      refine congrArg (start :: ·) (List.map_congr_left fun j _ => ?_)
      simp only [Function.comp_apply, Nat.succ_eq_add_one]
      ring
    · rw [rangeFrom_unfold hc, if_neg hs]
      have h1 : n - start + c - 1 = c - 1 := by omega
      rw [h1, Nat.div_eq_of_lt (by omega)]
      rfl

/-- Closed form of the chunk starts: `⌈n / c⌉` multiples of `c`. -/
theorem rangeFrom_zero {c : Nat} (hc : 0 < c) (n : Nat) :
    rangeFrom 0 n c = (List.range ((n + c - 1) / c)).map fun j => j * c := by
  rw [rangeFrom_closed hc n 0 n (by omega)]
  simp

/-- Converting a run of records of the creation class's own task
succeeds, record by record. -/
theorem mapExcept_ok {t : RecordType} {l : List Record}
    (h : ∀ r ∈ l, r.rtype = t) :
    mapExcept (fromClient t) l = .ok (l.map fun r => ⟨t, r.rid⟩) := by
  induction l with
  | nil => rfl
  | cons r rs ih =>
    have hr : r.rtype = t := h r (List.mem_cons_self r rs)
    simp only [mapExcept, fromClient, if_pos hr, List.map_cons]
    rw [ih fun x hx => h x (List.mem_cons_of_mem r hx)]

/-- Converting a chunk that contains a record of a different variant than
the creation class's task fails at the first such record. -/
theorem mapExcept_err {t : RecordType} {bad : Record} (hbad : bad.rtype ≠ t) :
    ∀ l₁ : List Record, (∀ r ∈ l₁, r.rtype = t) → ∀ l₂ : List Record,
      mapExcept (fromClient t) (l₁ ++ bad :: l₂) =
        .error ("Cannot build creation record for task " ++ recordTypeName t
          ++ " from record of type " ++ recordTypeName bad.rtype) := by
  intro l₁
  induction l₁ with
  | nil =>
    intro _ l₂
    simp only [List.nil_append, mapExcept, fromClient, if_neg hbad]
  | cons r rs ih =>
    intro h l₂
    have hr : r.rtype = t := h r (List.mem_cons_self r rs)
    have htail := ih (fun x hx => h x (List.mem_cons_of_mem r hx)) l₂
    show mapExcept (fromClient t) (r :: (rs ++ bad :: l₂)) = _
    simp only [mapExcept, fromClient, if_pos hr, htail]

/-- On an accepted variant the dispatch chain picks the variant's own
creation class. -/
theorem creationClassOf_accepted {t : RecordType} (h : t.isAccepted = true) :
    creationClassOf t = some t := by
  cases t with
  | other s => exact absurd h (by simp [RecordType.isAccepted])
  | _ => rfl

/-- Happy-path reduction of `log_async`: a matching name, a non-empty
batch whose first record dispatches, and a positive chunk size reach the
chunk loop. -/
theorem logAsync_run (T : Transport) (r : Record) (rs : List Record)
    (name : String) (task : RecordType) (C : Nat)
    (hname : matchesDatasetName name = true)
    (htask : creationClassOf r.rtype = some task)
    (hC : 0 < C) :
    logAsync T (r :: rs) name (C : Int) =
      ((uploadLoop T task (r :: rs) C (rangeFrom 0 (r :: rs).length C) 0 0 0 []).1,
       (uploadLoop T task (r :: rs) C (rangeFrom 0 (r :: rs).length C) 0 0 0 []).2.map
         fun pf => ⟨name, pf.1, pf.2⟩) := by
  have hne : name ≠ "" := by
    rintro rfl
    exact absurd hname (by decide)
  have hz : ¬((C : Int) = 0) := by omega
  have hneg : ¬((C : Int) < 0) := by omega
  simp only [logAsync, if_neg hne, hname, Bool.true_eq_false, if_false,
    htask, pyRange, if_neg hz, if_neg hneg, Int.toNat_natCast]

/-- Re-indexing a sum of `g` over a shifted range. -/
theorem range_map_sum_shift (g : Nat → Nat) (a n : Nat) :
    ((List.range (n + 1)).map fun j => g (a + j)).sum =
      g a + ((List.range n).map fun j => g (a + 1 + j)).sum := by
  rw [List.range_succ_eq_map]
  simp only [List.map_cons, List.map_map, List.sum_cons, Nat.add_zero]
  congr 1
  refine congrArg List.sum (List.map_congr_left fun j _ => ?_)
  simp only [Function.comp_apply, Nat.succ_eq_add_one]
  congr 1
  omega

/-- Invariant of the chunk loop when every conversion and every transport
call succeeds: the calls made are exactly one per chunk start, in order,
and the totals are the sums of the per-call counts. -/
theorem uploadLoop_all_ok (T : Transport) (task : RecordType)
    (records : List Record) (c : Nat) (p f : Nat → Nat)
    (pay : Nat → List CreationRecord)
    (hT : ∀ k payload, T k payload = .ok (p k, f k)) :
    ∀ (starts : List Nat) (callIdx processed failed : Nat)
      (trace : List (List CreationRecord)),
      (∀ i ∈ starts,
        mapExcept (fromClient task) ((records.drop i).take c) = .ok (pay i)) →
      uploadLoop T task records c starts callIdx processed failed trace =
        (trace.reverse ++ starts.map pay,
         .ok (processed + ((List.range starts.length).map fun j => p (callIdx + j)).sum,
              failed + ((List.range starts.length).map fun j => f (callIdx + j)).sum)) := by
  intro starts
  induction starts with
  | nil =>
    intro callIdx processed failed trace _
    simp [uploadLoop]
  | cons i rest ih =>
    intro callIdx processed failed trace h
    have hi := h i (List.mem_cons_self i rest)
    have htail := ih (callIdx + 1) (processed + p callIdx) (failed + f callIdx)
      (pay i :: trace) (fun x hx => h x (List.mem_cons_of_mem i hx))
    simp only [uploadLoop, hi, hT callIdx (pay i), htail]
    simp only [List.length_cons, List.map_cons, List.reverse_cons, List.append_assoc,
      List.singleton_append, Prod.mk.injEq]
    refine ⟨by trivial, ?_⟩
    rw [range_map_sum_shift p callIdx rest.length,
      range_map_sum_shift f callIdx rest.length]
    congr 1
    simp only [Prod.mk.injEq]
    exact ⟨by omega, by omega⟩

/-- Invariant of the chunk loop when the transport call for the chunk at
relative position `d` fails, all earlier calls succeeding: the calls made
are exactly those for chunks `0..d` (the failing call included, since the
failure happens inside it), and the error propagates with the
accumulated totals discarded. -/
theorem uploadLoop_transport_err (T : Transport) (task : RecordType)
    (records : List Record) (c : Nat) (p f : Nat → Nat)
    (pay : Nat → List CreationRecord) (e : String) :
    ∀ (starts : List Nat) (d callIdx processed failed : Nat)
      (trace : List (List CreationRecord)),
      (∀ i ∈ starts,
        mapExcept (fromClient task) ((records.drop i).take c) = .ok (pay i)) →
      (∀ k payload, callIdx ≤ k → k < callIdx + d → T k payload = .ok (p k, f k)) →
      (∀ payload, T (callIdx + d) payload = .error e) →
      d < starts.length →
      uploadLoop T task records c starts callIdx processed failed trace =
        (trace.reverse ++ (starts.take (d + 1)).map pay,
         .error (.transportError e)) := by
  intro starts
  induction starts with
  | nil =>
    intro d _ _ _ _ _ _ _ hd
    simp at hd
  | cons i rest ih =>
    intro d callIdx processed failed trace hconv hok herr hd
    have hi := hconv i (List.mem_cons_self i rest)
    cases d with
    | zero =>
      have he : T callIdx (pay i) = .error e := by
        have := herr (pay i)
        rwa [Nat.add_zero] at this
      simp only [uploadLoop, hi, he, List.take_succ_cons, List.take_zero,
        List.map_cons, List.map_nil, List.reverse_cons, List.append_assoc,
        List.singleton_append]
    | succ d =>
      have hok0 : T callIdx (pay i) = .ok (p callIdx, f callIdx) :=
        hok callIdx (pay i) (Nat.le_refl _) (by omega)
      have htail := ih d (callIdx + 1) (processed + p callIdx) (failed + f callIdx)
        (pay i :: trace)
        (fun x hx => hconv x (List.mem_cons_of_mem i hx))
        (fun k payload h1 h2 => hok k payload (by omega) (by omega))
        (fun payload => by
          have := herr payload
          rwa [show callIdx + (d + 1) = callIdx + 1 + d by omega] at this)
        (by simpa using hd)
      simp only [uploadLoop, hi, hok0, htail]
      simp only [List.take_succ_cons, List.map_cons, List.reverse_cons,
        List.append_assoc, List.singleton_append]

/-- Invariant of the chunk loop when the payload conversion for one chunk
fails, every earlier chunk converting and uploading fine: exactly the
earlier chunks' calls are made (conversion happens before the chunk's
own call), and the conversion error propagates. -/
theorem uploadLoop_conv_err (T : Transport) (task : RecordType)
    (records : List Record) (c : Nat) (p f : Nat → Nat)
    (pay : Nat → List CreationRecord) (e : String)
    (hT : ∀ k payload, T k payload = .ok (p k, f k)) :
    ∀ (pre : List Nat) (i₀ : Nat) (post : List Nat)
      (callIdx processed failed : Nat) (trace : List (List CreationRecord)),
      (∀ i ∈ pre,
        mapExcept (fromClient task) ((records.drop i).take c) = .ok (pay i)) →
      mapExcept (fromClient task) ((records.drop i₀).take c) = .error e →
      uploadLoop T task records c (pre ++ i₀ :: post) callIdx processed failed trace =
        (trace.reverse ++ pre.map pay, .error (.conversionError e)) := by
  intro pre
  induction pre with
  | nil =>
    intro i₀ post callIdx processed failed trace _ herr
    simp only [List.nil_append, uploadLoop, herr, List.map_nil, List.append_nil]
  | cons i rest ih =>
    intro i₀ post callIdx processed failed trace hconv herr
    have hi := hconv i (List.mem_cons_self i rest)
    have htail := ih i₀ post (callIdx + 1) (processed + p callIdx) (failed + f callIdx)
      (pay i :: trace) (fun x hx => hconv x (List.mem_cons_of_mem i hx)) herr
    simp only [List.cons_append, uploadLoop, hi, hT callIdx (pay i)]
    refine htail.trans ?_
    simp [List.reverse_cons, List.append_assoc]

/-- The witness batches are never empty for positive `n`. -/
theorem witnessBatch_ne_nil {n : Nat} (hn : 0 < n) : witnessBatch n ≠ [] := by
  intro h
  have hl := congrArg List.length h
  simp [witnessBatch] at hl
  omega

/-- The witness batches are homogeneous text-classification batches. -/
theorem witnessBatch_rtype {n : Nat} :
    ∀ r ∈ witnessBatch n, r.rtype = .textClassification := by
  intro r hr
  obtain ⟨i, _, rfl⟩ := List.mem_map.mp hr
  rfl

/-! ## Claim theorems -/

/-- C4: a `log_async` call whose dataset name is empty or does not match
the dataset-name pattern fails with a client-side input error before any
submission: the Transport Client is called zero times. -/
theorem invalid_name_rejected (T : Transport) (records : List Record)
    (name : String) (chunkSize : Int)
    (h : name = "" ∨ matchesDatasetName name = false) :
    (logAsync T records name chunkSize).1 = [] ∧
      isInputValueError (logAsync T records name chunkSize).2 = true := by
  by_cases hne : name = ""
  · subst hne
    exact ⟨rfl, rfl⟩
  · rcases h with rfl | hm
    · exact absurd rfl hne
    · simp [logAsync, if_neg hne, hm, isInputValueError]

/-- Witness for C4 at the concrete name `"bad name"` (contains a space). -/
theorem invalid_name_rejected_witness :
    ("bad name" = "" ∨ matchesDatasetName "bad name" = false) ∧
      ((logAsync witnessTransport (witnessBatch 3) "bad name" 500).1 = [] ∧
        isInputValueError
          (logAsync witnessTransport (witnessBatch 3) "bad name" 500).2 = true) :=
  ⟨Or.inr (by decide),
   invalid_name_rejected witnessTransport (witnessBatch 3) "bad name" 500
     (Or.inr (by decide))⟩

/-- C5: a non-empty batch whose first record's type is none of the three
accepted variants is rejected before any Transport Client call with an
input error whose message names the offending type and every accepted
variant; the dispatch consults nothing but the record's exact type tag
(`creationClassOf` is a function of `rtype` alone). -/
theorem unknown_variant_rejected (T : Transport) (r : Record) (rs : List Record)
    (name : String) (chunkSize : Int) (tn : String)
    (hname : matchesDatasetName name = true)
    (hr : r.rtype = .other tn) :
    logAsync T (r :: rs) name chunkSize =
        ([], .error (.inputValue (unknownTypeMsg (.other tn)))) ∧
      (recordTypeName (.other tn)).toList <:+: (unknownTypeMsg (.other tn)).toList ∧
      (∀ v ∈ acceptedVariantNames,
        v.toList <:+: (unknownTypeMsg (.other tn)).toList) ∧
      (∀ r₁ r₂ : Record, r₁.rtype = r₂.rtype →
        creationClassOf r₁.rtype = creationClassOf r₂.rtype) := by
  have hne : name ≠ "" := by
    rintro rfl
    exact absurd hname (by decide)
  refine ⟨?_, ?_, ?_, fun r₁ r₂ h => by rw [h]⟩
  · simp only [logAsync, if_neg hne, hname, Bool.true_eq_false, if_false, hr,
      creationClassOf]
  · refine ⟨"Unknown record type ".toList,
      (". Available values are "
        ++ String.intercalate ", " acceptedVariantNames).toList, ?_⟩
    simp [unknownTypeMsg, recordTypeName, String.toList, String.data_append]
  · intro v hv
    have hsuffix : (String.intercalate ", " acceptedVariantNames).toList <:+:
        (unknownTypeMsg (.other tn)).toList := by
      refine ⟨("Unknown record type " ++ tn ++ ". Available values are ").toList,
        [], ?_⟩
      simp [unknownTypeMsg, recordTypeName, String.toList, String.data_append]
    refine List.IsInfix.trans ?_ hsuffix
    fin_cases hv <;> decide

/-- Witness for C5 at a concrete record of unrecognized type `"Foo"`. -/
theorem unknown_variant_rejected_witness :
    matchesDatasetName "ds" = true ∧
      (Record.mk (.other "Foo") 0).rtype = .other "Foo" ∧
      logAsync witnessTransport [⟨.other "Foo", 0⟩] "ds" 500 =
        ([], .error (.inputValue (unknownTypeMsg (.other "Foo")))) :=
  ⟨by decide, rfl,
   (unknown_variant_rejected witnessTransport ⟨.other "Foo", 0⟩ [] "ds" 500 "Foo"
     (by decide) rfl).1⟩

/-- C6: an empty record batch always fails with an input error and
performs zero Transport Client calls, whatever the name, chunk size and
transport. -/
theorem empty_batch_rejected (T : Transport) (name : String) (chunkSize : Int) :
    (logAsync T [] name chunkSize).1 = [] ∧
      isInputValueError (logAsync T [] name chunkSize).2 = true := by
  by_cases hne : name = ""
  · subst hne
    exact ⟨rfl, rfl⟩
  · by_cases hm : matchesDatasetName name = true
    · simp [logAsync, if_neg hne, hm, isInputValueError]
    · simp [logAsync, if_neg hne, Bool.not_eq_true _ ▸ hm, isInputValueError]

/-- C10: a non-empty, dispatchable batch logged with a negative chunk
size makes the loop over `range(0, len(records), chunk_size)` empty:
zero Transport Client calls and a `BulkResponse` with `processed = 0`
and `failed = 0`, not an input error. -/
theorem negative_chunk_size_no_calls (T : Transport) (r : Record)
    (rs : List Record) (name : String) (chunkSize : Int) (task : RecordType)
    (hname : matchesDatasetName name = true)
    (htask : creationClassOf r.rtype = some task)
    (hneg : chunkSize < 0) :
    logAsync T (r :: rs) name chunkSize = ([], .ok ⟨name, 0, 0⟩) := by
  have hne : name ≠ "" := by
    rintro rfl
    exact absurd hname (by decide)
  have hz : ¬(chunkSize = 0) := by omega
  simp only [logAsync, if_neg hne, hname, Bool.true_eq_false, if_false, htask,
    pyRange, if_neg hz, if_pos hneg, uploadLoop, List.reverse_nil, Except.map]

/-- Witness for C10 at chunk size `-5` on a two-record batch. -/
theorem negative_chunk_size_no_calls_witness :
    matchesDatasetName "ds" = true ∧ ((-5 : Int) < 0) ∧
      logAsync witnessTransport
          [⟨.textClassification, 0⟩, ⟨.textClassification, 1⟩] "ds" (-5) =
        ([], .ok ⟨"ds", 0, 0⟩) :=
  ⟨by decide, by decide,
   negative_chunk_size_no_calls witnessTransport ⟨.textClassification, 0⟩
     [⟨.textClassification, 1⟩] "ds" (-5) .textClassification (by decide) rfl
     (by decide)⟩

/-- C7: with `background=True` the facade returns the still-pending
future at once, neither waiting on it nor cancelling it; with
`background=False` it blocks on the future, returns its `BulkResponse`
or re-raises its failure, and cancels the future on both exit paths
(the `try/finally`). -/
theorem api_log_blocking_and_background (outcome : Except LogError BulkResponse) :
    apiLog outcome true = ⟨.backgroundFuture outcome, false⟩ ∧
      (apiLog outcome false).futureCancelled = true ∧
      (apiLog outcome false).ret =
        (match outcome with
         | .ok r => .blockingResult r
         | .error e => .blockingRaise e) := by
  refine ⟨rfl, ?_, ?_⟩ <;> cases outcome <;> rfl

/-- C8: an exception from the upload coroutine submitted through the
agent is logged with its call context — the arguments, the exception's
type and its message all appear in the diagnostic — and then re-raised
unchanged into the handle, so a blocking `log` call raises that same
error. -/
theorem log_internal_logs_and_reraises (argsCtx : String) (e : LogError) :
    (∃ msg, (logInternal argsCtx (.error e)).1 = some msg ∧
        argsCtx.toList <:+: msg.toList ∧
        e.typeName.toList <:+: msg.toList ∧
        e.message.toList <:+: msg.toList) ∧
      (logInternal argsCtx (.error e)).2 = .error e ∧
      (apiLog (logInternal argsCtx (.error e)).2 false).ret = .blockingRaise e := by
  refine ⟨⟨_, rfl, ?_, ?_, ?_⟩, rfl, rfl⟩
  · refine ⟨"Cannot log data ".toList,
      ("\nError of type " ++ e.typeName ++ "\n: " ++ e.message).toList, ?_⟩
    simp [String.toList, String.data_append]
  · refine ⟨("Cannot log data " ++ argsCtx ++ "\nError of type ").toList,
      ("\n: " ++ e.message).toList, ?_⟩
    simp [String.toList, String.data_append]
  · refine ⟨("Cannot log data " ++ argsCtx ++ "\nError of type " ++ e.typeName
      ++ "\n: ").toList, [], ?_⟩
    simp [String.toList, String.data_append]

/-- C1: a non-empty homogeneous batch of an accepted variant, a matching
name and a positive chunk size, with every transport call succeeding:
`log_async` makes exactly `⌈N / C⌉` Transport Client calls, the `k`-th
call carrying the wire payloads of the positional chunk
`records[k*C : (k+1)*C]`, and returns a `BulkResponse` whose processed
and failed fields are the sums of the per-call counts. -/
theorem log_async_chunking_and_totals (T : Transport) (records : List Record)
    (name : String) (t : RecordType) (C : Nat) (p f : Nat → Nat)
    (hname : matchesDatasetName name = true)
    (hne : records ≠ [])
    (hC : 0 < C)
    (ht : t.isAccepted = true)
    (hhom : ∀ r ∈ records, r.rtype = t)
    (hT : ∀ k payload, T k payload = .ok (p k, f k)) :
    (logAsync T records name (C : Int)).1 =
        (List.range ((records.length + C - 1) / C)).map
          (fun k => ((records.drop (k * C)).take C).map fun r => ⟨t, r.rid⟩) ∧
      (logAsync T records name (C : Int)).1.length =
        (records.length + C - 1) / C ∧
      (logAsync T records name (C : Int)).2 =
        .ok ⟨name, ((List.range ((records.length + C - 1) / C)).map p).sum,
                   ((List.range ((records.length + C - 1) / C)).map f).sum⟩ := by
  obtain ⟨r, rs, rfl⟩ : ∃ r rs, records = r :: rs := by
    cases records with
    | nil => exact absurd rfl hne
    | cons a b => exact ⟨a, b, rfl⟩
  have hr : r.rtype = t := hhom r (List.mem_cons_self r rs)
  have htask : creationClassOf r.rtype = some t := by
    rw [hr]
    exact creationClassOf_accepted ht
  rw [logAsync_run T r rs name t C hname htask hC, rangeFrom_zero hC,
    uploadLoop_all_ok T t (r :: rs) C p f
      (fun i => (((r :: rs).drop i).take C).map fun x => ⟨t, x.rid⟩) hT
      _ 0 0 0 []
      (fun i _ => mapExcept_ok fun x hx =>
        hhom x (List.mem_of_mem_drop (List.mem_of_mem_take hx)))]
  refine ⟨?_, ?_, ?_⟩
  · simp [List.map_map, Function.comp]
  · simp
  · simp [Except.map, Nat.zero_add]

set_option maxRecDepth 100000 in
/-- Witness for C1: 1200 records, chunk size 500 — exactly 3 calls of
sizes 500, 500 and 200, and the summed response. -/
theorem log_async_chunking_and_totals_witness :
    matchesDatasetName "ds" = true ∧
      witnessBatch 1200 ≠ [] ∧ (0 : Nat) < 500 ∧
      RecordType.isAccepted .textClassification = true ∧
      (∀ r ∈ witnessBatch 1200, r.rtype = .textClassification) ∧
      (∀ k payload, witnessTransport k payload = .ok (2, 1)) ∧
      (logAsync witnessTransport (witnessBatch 1200) "ds"
        ((500 : Nat) : Int)).1.length = 3 ∧
      (logAsync witnessTransport (witnessBatch 1200) "ds"
        ((500 : Nat) : Int)).1.map List.length = [500, 500, 200] ∧
      (logAsync witnessTransport (witnessBatch 1200) "ds"
        ((500 : Nat) : Int)).2 = .ok ⟨"ds", 6, 3⟩ := by
  have h := log_async_chunking_and_totals witnessTransport (witnessBatch 1200)
    "ds" .textClassification 500 (fun _ => 2) (fun _ => 1)
    (by decide) (witnessBatch_ne_nil (by omega)) (by omega) rfl
    witnessBatch_rtype (fun k payload => rfl)
  have hlen : (witnessBatch 1200).length = 1200 := by simp [witnessBatch]
  rw [hlen] at h
  rw [show (1200 + 500 - 1) / 500 = 3 from by norm_num] at h
  refine ⟨by decide, witnessBatch_ne_nil (by omega), by omega, rfl,
    witnessBatch_rtype, fun k payload => rfl, h.2.1, ?_, ?_⟩
  · rw [h.1]
    decide
  · rw [h.2.2]
    congr 1

/-- C3: when the transport call for chunk `k` raises and all earlier
calls succeed, `log_async` makes exactly the calls for chunks `0..k` —
none after `k`, and the earlier chunks' calls stay in the trace (nothing
is un-applied) — produces no `BulkResponse` (the accumulated totals are
discarded), and propagates the transport error to the caller. -/
theorem transport_error_aborts (T : Transport) (records : List Record)
    (name : String) (t : RecordType) (C k : Nat) (p f : Nat → Nat) (e : String)
    (hname : matchesDatasetName name = true)
    (hne : records ≠ [])
    (hC : 0 < C)
    (ht : t.isAccepted = true)
    (hhom : ∀ r ∈ records, r.rtype = t)
    (hk : k < (records.length + C - 1) / C)
    (hok : ∀ j payload, j < k → T j payload = .ok (p j, f j))
    (herr : ∀ payload, T k payload = .error e) :
    (logAsync T records name (C : Int)).1 =
        (List.range (k + 1)).map
          (fun j => ((records.drop (j * C)).take C).map fun r => ⟨t, r.rid⟩) ∧
      (logAsync T records name (C : Int)).2 = .error (.transportError e) := by
  obtain ⟨r, rs, rfl⟩ : ∃ r rs, records = r :: rs := by
    cases records with
    | nil => exact absurd rfl hne
    | cons a b => exact ⟨a, b, rfl⟩
  have hr : r.rtype = t := hhom r (List.mem_cons_self r rs)
  have htask : creationClassOf r.rtype = some t := by
    rw [hr]
    exact creationClassOf_accepted ht
  rw [logAsync_run T r rs name t C hname htask hC, rangeFrom_zero hC,
    uploadLoop_transport_err T t (r :: rs) C p f
      (fun i => (((r :: rs).drop i).take C).map fun x => ⟨t, x.rid⟩) e
      _ k 0 0 0 []
      (fun i _ => mapExcept_ok fun x hx =>
        hhom x (List.mem_of_mem_drop (List.mem_of_mem_take hx)))
      (fun j payload _ hj => hok j payload (by omega))
      (fun payload => by simpa using herr payload)
      (by simpa using hk)]
  constructor
  · rw [← List.map_take, List.take_range]
    simp only [List.reverse_nil, List.nil_append, List.map_map]
    rw [Nat.min_eq_left (by omega)]
    rfl
  · simp [Except.map]

set_option maxRecDepth 10000 in
/-- Witness for C3: five records, chunk size 2, transport failing from
its second call on — exactly two calls made, error propagated. -/
theorem transport_error_aborts_witness :
    matchesDatasetName "ds" = true ∧ witnessBatch 5 ≠ [] ∧ (0 : Nat) < 2 ∧
      (1 : Nat) < ((witnessBatch 5).length + 2 - 1) / 2 ∧
      (logAsync failingTransport (witnessBatch 5) "ds"
        ((2 : Nat) : Int)).1.length = 2 ∧
      (logAsync failingTransport (witnessBatch 5) "ds"
        ((2 : Nat) : Int)).2 = .error (.transportError "boom") := by
  have h := transport_error_aborts failingTransport (witnessBatch 5) "ds"
    .textClassification 2 1 (fun _ => 2) (fun _ => 0) "boom"
    (by decide) (witnessBatch_ne_nil (by omega)) (by omega) rfl
    witnessBatch_rtype (by decide)
    (by
      intro j payload hj
      have hj0 : j = 0 := by omega
      subst hj0
      rfl)
    (fun payload => rfl)
  refine ⟨by decide, witnessBatch_ne_nil (by omega), by omega, by decide,
    ?_, h.2⟩
  rw [h.1]
  decide

set_option maxRecDepth 100000 in
/-- Counterexample to C2 as stated: a batch of 501 text-classification
records followed by one token-classification record, chunk size 500 — a
Transport Client call is made (for the first, all-matching chunk) before
any failure, and the failure eventually raised is not an input error. -/
theorem mixed_batch_counterexample :
    (logAsync witnessTransport
        (witnessBatch 501 ++ [⟨.tokenClassification, 501⟩]) "ds" 500).1.length
        = 1 ∧
      isInputValueError
        (logAsync witnessTransport
          (witnessBatch 501 ++ [⟨.tokenClassification, 501⟩]) "ds" 500).2
        = false := by
  constructor <;> decide

/-- C2 (amended): `log_async` resolves the variant from the first record
only and never validates later records' variants up front.  A batch of
records of an accepted variant `t` followed by an offending record of a
different variant fails only when that record's wire conversion is
attempted: the outcome is a conversion error — not an input error — and
the Transport Client has already been called once for each of the
`⌊n/C⌋` complete chunks of matching records preceding the offending
record's chunk (those uploads stay applied), with no call from the
offending chunk on. -/
theorem mixed_batch_conversion_failure (T : Transport) (good : List Record)
    (bad : Record) (rest : List Record) (name : String) (t : RecordType)
    (C : Nat) (p f : Nat → Nat)
    (hname : matchesDatasetName name = true)
    (hgood : good ≠ [])
    (hC : 0 < C)
    (ht : t.isAccepted = true)
    (hhom : ∀ r ∈ good, r.rtype = t)
    (hbad : bad.rtype ≠ t)
    (hT : ∀ k payload, T k payload = .ok (p k, f k)) :
    (logAsync T (good ++ bad :: rest) name (C : Int)).1 =
        (List.range (good.length / C)).map
          (fun j => (((good ++ bad :: rest).drop (j * C)).take C).map
            fun r => ⟨t, r.rid⟩) ∧
      (logAsync T (good ++ bad :: rest) name (C : Int)).1.length =
        good.length / C ∧
      isConversionError (logAsync T (good ++ bad :: rest) name (C : Int)).2 =
        true := by
  obtain ⟨g, gs, rfl⟩ : ∃ g gs, good = g :: gs := by
    cases good with
    | nil => exact absurd rfl hgood
    | cons a b => exact ⟨a, b, rfl⟩
  have hg : g.rtype = t := hhom g (List.mem_cons_self g gs)
  have htask : creationClassOf g.rtype = some t := by
    rw [hg]
    exact creationClassOf_accepted ht
  have hrec : (g :: gs) ++ bad :: rest = g :: (gs ++ bad :: rest) :=
    List.cons_append g gs (bad :: rest)
  rw [hrec, logAsync_run T g (gs ++ bad :: rest) name t C hname htask hC,
    rangeFrom_zero hC]
  simp only [List.length_cons, List.length_append]
  have hdm : (gs.length + 1) / C + 1 ≤
      (gs.length + (rest.length + 1) + 1 + C - 1) / C := by
    have h1 : (gs.length + 1) / C + 1 = (gs.length + 1 + C) / C :=
      (Nat.add_div_right _ hC).symm
    rw [h1]
    exact Nat.div_le_div_right (by omega)
  have hsplit : List.range ((gs.length + (rest.length + 1) + 1 + C - 1) / C) =
      List.range ((gs.length + 1) / C) ++ (gs.length + 1) / C ::
        (List.range ((gs.length + (rest.length + 1) + 1 + C - 1) / C
            - ((gs.length + 1) / C + 1))).map
          (fun x => (gs.length + 1) / C + 1 + x) := by
    conv_lhs => rw [show (gs.length + (rest.length + 1) + 1 + C - 1) / C
      = ((gs.length + 1) / C + 1) + ((gs.length + (rest.length + 1) + 1 + C - 1) / C
          - ((gs.length + 1) / C + 1)) from by omega]
    rw [List.range_add, List.range_succ]
    simp [List.append_assoc]
  have hconv : ∀ i ∈ (List.range ((gs.length + 1) / C)).map (· * C),
      mapExcept (fromClient t) (((g :: (gs ++ bad :: rest)).drop i).take C) =
        .ok ((((g :: (gs ++ bad :: rest)).drop i).take C).map
          fun r => ⟨t, r.rid⟩) := by
    intro i hi
    obtain ⟨j, hj, rfl⟩ := List.mem_map.mp hi
    have hjd : j < (gs.length + 1) / C := List.mem_range.mp hj
    have hjC : j * C + C ≤ gs.length + 1 := by
      have h1 : (j + 1) * C ≤ ((gs.length + 1) / C) * C :=
        Nat.mul_le_mul_right C (by omega)
      have h2 : ((gs.length + 1) / C) * C ≤ gs.length + 1 :=
        Nat.div_mul_le_self _ _
      have h3 : (j + 1) * C = j * C + C := by ring
      omega
    have hchunk : ((g :: (gs ++ bad :: rest)).drop (j * C)).take C =
        ((g :: gs).drop (j * C)).take C := by
      rw [← List.cons_append,
        List.drop_append_of_le_length (by simp only [List.length_cons]; omega),
        List.take_append_of_le_length (by
          simp only [List.length_drop, List.length_cons]; omega)]
    rw [hchunk]
    exact mapExcept_ok fun x hx =>
      hhom x (List.mem_of_mem_drop (List.mem_of_mem_take hx))
  have hmod : gs.length + 1 - (gs.length + 1) / C * C < C := by
    have h1 : (gs.length + 1) / C * C + (gs.length + 1) % C = gs.length + 1 := by
      rw [Nat.mul_comm]
      exact Nat.div_add_mod _ _
    have h2 : (gs.length + 1) % C < C := Nat.mod_lt _ hC
    omega
  have hdC : (gs.length + 1) / C * C ≤ gs.length + 1 := Nat.div_mul_le_self _ _
  have herr : mapExcept (fromClient t)
      (((g :: (gs ++ bad :: rest)).drop ((gs.length + 1) / C * C)).take C) =
        .error ("Cannot build creation record for task " ++ recordTypeName t
          ++ " from record of type " ++ recordTypeName bad.rtype) := by
    rw [← List.cons_append,
      List.drop_append_of_le_length (by simp only [List.length_cons]; omega),
      List.take_append_eq_append_take,
      List.take_of_length_le (by
        simp only [List.length_drop, List.length_cons]; omega)]
    obtain ⟨q, hq⟩ : ∃ q,
        C - ((g :: gs).drop ((gs.length + 1) / C * C)).length = q + 1 := by
      refine ⟨C - ((g :: gs).drop ((gs.length + 1) / C * C)).length - 1, ?_⟩
      simp only [List.length_drop, List.length_cons]
      omega
    rw [hq, List.take_succ_cons]
    exact mapExcept_err hbad _
      (fun x hx => hhom x (List.mem_of_mem_drop hx)) _
  rw [hsplit, List.map_append, List.map_cons,
    uploadLoop_conv_err T t (g :: (gs ++ bad :: rest)) C p f
      (fun i => (((g :: (gs ++ bad :: rest)).drop i).take C).map
        fun r => ⟨t, r.rid⟩)
      ("Cannot build creation record for task " ++ recordTypeName t
        ++ " from record of type " ++ recordTypeName bad.rtype)
      hT
      ((List.range ((gs.length + 1) / C)).map (· * C))
      ((gs.length + 1) / C * C)
      _ 0 0 0 [] hconv herr]
  refine ⟨?_, ?_, ?_⟩
  · simp [List.map_map, Function.comp]
  · simp
  · simp [Except.map, isConversionError]

/-- Witness for the amended C2: three matching records then one
token-classification record, chunk size 2 — one transport call, then a
conversion error. -/
theorem mixed_batch_conversion_failure_witness :
    matchesDatasetName "ds" = true ∧ witnessBatch 3 ≠ [] ∧ (0 : Nat) < 2 ∧
      (Record.mk .tokenClassification 3).rtype ≠ RecordType.textClassification ∧
      (logAsync witnessTransport
        (witnessBatch 3 ++ Record.mk .tokenClassification 3 :: []) "ds"
        ((2 : Nat) : Int)).1.length = 1 ∧
      isConversionError
        (logAsync witnessTransport
          (witnessBatch 3 ++ Record.mk .tokenClassification 3 :: []) "ds"
          ((2 : Nat) : Int)).2 = true := by
  have h := mixed_batch_conversion_failure witnessTransport (witnessBatch 3)
    ⟨.tokenClassification, 3⟩ [] "ds" .textClassification 2
    (fun _ => 2) (fun _ => 1)
    (by decide) (witnessBatch_ne_nil (by omega)) (by omega) rfl
    witnessBatch_rtype (by decide) (fun k payload => rfl)
  have hlen : (witnessBatch 3).length = 3 := by simp [witnessBatch]
  rw [hlen] at h
  refine ⟨by decide, witnessBatch_ne_nil (by omega), by omega, by decide,
    h.2.1.trans (by norm_num), h.2.2⟩

/-- Reachability invariant of the background-context state machine: from
any state where at most one loop exists (its id 0, recorded consistently
in the fields), running any operation sequence keeps the creation count
at most one and schedules every submission on loop 0. -/
theorem runOps_singleton :
    ∀ (ops : List ProcOp) (s : ProcState),
      s.loopsCreated ≤ 1 →
      (s.contextLoop = none → s.loopsCreated = 0) →
      (∀ l, s.contextLoop = some l → l = 0 ∧ s.loopsCreated = 1) →
      (∀ l, s.activeAgentLoop = some l → s.contextLoop = some l) →
      (runOps ops s).1.loopsCreated ≤ 1 ∧
        ∀ l ∈ (runOps ops s).2, l = 0 := by
  intro ops
  induction ops with
  | nil =>
    intro s h1 _ _ _
    exact ⟨h1, by simp [runOps]⟩
  | cons op ops ih =>
    intro s h1 h2 h3 h4
    obtain ⟨cl, lc, aal⟩ := s
    cases op with
    | initCall =>
      cases cl with
      | none =>
        have h0 : lc = 0 := h2 rfl
        subst h0
        simp only [runOps, moduleInit, apiInit, setupLoopInThread]
        exact ih _ (by simp) (fun h => nomatch h)
          (by intro l hl; cases hl; exact ⟨rfl, rfl⟩) (fun l hl => hl)
      | some l =>
        have hl0 := h3 l rfl
        simp only [runOps, moduleInit, apiInit, setupLoopInThread]
        exact ih _ h1 (fun h => nomatch h)
          (by intro l' hl'; cases hl'; exact hl0) (fun l' hl' => hl')
    | logSubmit =>
      cases aal with
      | some l =>
        have hcl := h4 l rfl
        have hl0 := h3 l hcl
        simp only [runOps, activeApi]
        have hrest := ih ⟨cl, lc, some l⟩ h1 h2 h3 h4
        refine ⟨hrest.1, ?_⟩
        intro x hx
        rcases List.mem_cons.mp hx with rfl | hx2
        · exact hl0.1
        · exact hrest.2 x hx2
      | none =>
        cases cl with
        | none =>
          have h0 : lc = 0 := h2 rfl
          subst h0
          simp only [runOps, activeApi, apiInit, setupLoopInThread]
          have hrest := ih ⟨some 0, 0 + 1, some 0⟩ (by simp) (fun h => nomatch h)
            (by intro l hl; cases hl; exact ⟨rfl, rfl⟩) (fun l hl => hl)
          refine ⟨hrest.1, ?_⟩
          intro x hx
          rcases List.mem_cons.mp hx with rfl | hx2
          · rfl
          · exact hrest.2 x hx2
        | some l =>
          have hl0 := h3 l rfl
          simp only [runOps, activeApi, apiInit, setupLoopInThread]
          have hrest := ih ⟨some l, lc, some l⟩ h1 (fun h => nomatch h)
            (by intro l' hl'; cases hl'; exact hl0) (fun l' hl' => hl')
          refine ⟨hrest.1, ?_⟩
          intro x hx
          rcases List.mem_cons.mp hx with rfl | hx2
          · exact hl0.1
          · exact hrest.2 x hx2

/-- C9: starting from process start (no loop exists — creation is lazy),
any sequence of module-level `init` and `log` submissions creates the
scheduling loop (and its worker thread) at most once, and every
submission is scheduled on that single loop. -/
theorem loop_created_once_and_reused (ops : List ProcOp) :
    initialProcState.loopsCreated = 0 ∧
      (runOps ops initialProcState).1.loopsCreated ≤ 1 ∧
      ∀ l ∈ (runOps ops initialProcState).2, l = 0 := by
  refine ⟨rfl, ?_, ?_⟩
  · exact (runOps_singleton ops initialProcState (by decide) (fun _ => rfl)
      (fun l hl => nomatch hl) (fun l hl => nomatch hl)).1
  · exact (runOps_singleton ops initialProcState (by decide) (fun _ => rfl)
      (fun l hl => nomatch hl) (fun l hl => nomatch hl)).2

/-- Witness for C9 at the concrete operation sequence
`[log, init, log]`: both submissions use loop 0 and only one loop was
ever created. -/
theorem loop_created_once_and_reused_witness :
    (runOps [.logSubmit, .initCall, .logSubmit]
        initialProcState).1.loopsCreated ≤ 1 ∧
      (0 : Nat) ∈ (runOps [.logSubmit, .initCall, .logSubmit]
        initialProcState).2 ∧
      ∀ l ∈ (runOps [.logSubmit, .initCall, .logSubmit] initialProcState).2,
        l = 0 :=
  ⟨(loop_created_once_and_reused [.logSubmit, .initCall, .logSubmit]).2.1,
   by decide,
   (loop_created_once_and_reused [.logSubmit, .initCall, .logSubmit]).2.2⟩


end Rubrix
